import Mathlib

/-!
Verification of `extract-docx.py`, a one-shot utility that reads a Word
document and dumps its paragraph and table text to a plain-text file,
falling back to launching the document externally when the `python-docx`
library is absent.

The script is embedded shallowly as a pure function `run` from an
environment (availability of the library, readability of the input
document, an optional injected write failure, the exit status of the
fallback launch) to an event trace plus an outcome.  The file-system
effect of a trace on the output file is given by `applyEvent`/`outputAfter`.
-/

namespace ExtractDocx

/-- A table cell's text (`cell.text`). -/
abbrev Cell := String

/-- A table row: its cells left-to-right (`row.cells`). -/
abbrev Row := List Cell

/-- A table: its rows top-to-bottom (`table.rows`). -/
abbrev Table := List Row

/-- The structured document as seen through python-docx: `doc.paragraphs`
(each reduced to its `.text`) and `doc.tables`. -/
structure Doc where
  paragraphs : List String
  tables : List Table
deriving DecidableEq, Repr

/-- Hard-coded input path (`'API_docs/Spec ETF.docx'`). -/
def inputPath : String := "API_docs/Spec ETF.docx"

/-- Hard-coded output path (`'API_docs/Spec_ETF_extracted.txt'`). -/
def outputPath : String := "API_docs/Spec_ETF_extracted.txt"

/-- Success message printed on line 18 of the script. -/
def successMsg : String := "✓ Extracted ETF spec to Spec_ETF_extracted.txt"

/-- Remediation message printed on line 21 of the script. -/
def missingDepMsg : String := "❌ python-docx not installed. Install with: pip install python-docx"

/-- Second message of the fallback path (line 22 of the script). -/
def fallbackMsg : String := "\nAlternatively, opening the Word document manually..."

/-- Observable effects of one execution of the script. -/
inductive Event where
  | openDoc (path : String)
  | openOutput (path : String)
  | write (s : String)
  | closeOutput
  | printMsg (s : String)
  | launch (cmd : List String) (shellMode : Bool)
deriving DecidableEq, Repr

/-- How the process ends: normally, or by an uncaught exception. -/
inductive Outcome where
  | success
  | fault
deriving DecidableEq, Repr

/-- Environment of one execution: whether `from docx import Document`
succeeds, the parsed document (`none` when `Document(...)` raises, e.g.
because the input file is missing or corrupt), an optional injected
failure at the k-th `f.write` call (modelling a disk write error), and
the exit status of the command launched by the fallback path. -/
structure Env where
  docxAvailable : Bool
  inputDoc : Option Doc
  writeFailsAt : Option Nat
  launchExitCode : Int
deriving DecidableEq, Repr

/-- Python's `'\t'.join(cells)`: cell texts joined by single tab
characters. -/
def rowLine : List String → String
  | [] => ""
  | [c] => c
  | c :: c2 :: rest => c ++ "\t" ++ rowLine (c2 :: rest)

/-- The chunks passed to `f.write`, accumulated exactly as the script's
loops produce them: first the paragraph loop (lines 10-11), then the
nested table/row loop (lines 14-16).  Each chunk is one line including
its terminating newline. -/
def scriptWrites (doc : Doc) : List String :=
  let afterParas := doc.paragraphs.foldl (fun f para => f ++ [para ++ "\n"]) ([] : List String)
  doc.tables.foldl
    (fun f table => table.foldl (fun f row => f ++ [rowLine row ++ "\n"]) f) afterParas

/-- Concatenation of a list of strings (the bytes the file receives). -/
def strJoin : List String → String
  | [] => ""
  | s :: rest => s ++ strJoin rest

/-- The full text of the output file produced by a completed extraction. -/
def outputContent (doc : Doc) : String := strJoin (scriptWrites doc)

/-- The event trace and outcome of one execution of the script, as a
function of the environment.  Mirrors the `try`/`except ImportError`
structure: the import is attempted first; on success `Document(...)` is
called (raising uncaught when the input cannot be read), then the output
file is opened with `with` (so it is closed on every exit path of the
block), the lines are written, and the success message printed.  Only
`ImportError` is caught; the handler prints two messages and launches
`subprocess.run(['start', inputPath], shell=True)`. -/
def run (env : Env) : List Event × Outcome :=
  if env.docxAvailable then
    match env.inputDoc with
    | none => ([Event.openDoc inputPath], Outcome.fault)
    | some doc =>
      let lines := scriptWrites doc
      match env.writeFailsAt with
      | some k =>
        if k < lines.length then
          ([Event.openDoc inputPath, Event.openOutput outputPath]
            ++ (lines.take k).map Event.write ++ [Event.closeOutput], Outcome.fault)
        else
          ([Event.openDoc inputPath, Event.openOutput outputPath]
            ++ lines.map Event.write
            ++ [Event.closeOutput, Event.printMsg successMsg], Outcome.success)
      | none =>
        ([Event.openDoc inputPath, Event.openOutput outputPath]
          ++ lines.map Event.write
          ++ [Event.closeOutput, Event.printMsg successMsg], Outcome.success)
  else
    ([Event.printMsg missingDepMsg, Event.printMsg fallbackMsg,
      Event.launch ["start", inputPath] true], Outcome.success)

/-- Effect of one event on the contents of the output file (`none` when
the file does not exist).  Opening in mode `'w'` truncates; each write
appends to the open file. -/
def applyEvent (file : Option String) : Event → Option String
  | Event.openOutput _ => some ""
  | Event.write s =>
    match file with
    | some c => some (c ++ s)
    | none => none
  | _ => file

/-- Contents of the output file after running the script in `env`,
starting from a pre-existing file state `prev`. -/
def outputAfter (prev : Option String) (env : Env) : Option String :=
  (run env).1.foldl applyEvent prev

/-- The strings written to the output file, in order, as read off a
trace. -/
def writePayloads : List Event → List String
  | [] => []
  | Event.write s :: es => s :: writePayloads es
  | _ :: es => writePayloads es

/-- Flattening of the table loop: one line per row, tables in order,
rows top-to-bottom. -/
def tableLines : List Table → List String
  | [] => []
  | t :: ts => t.map (fun row => rowLine row ++ "\n") ++ tableLines ts

/-- Number of tab characters in a string. -/
def tabCount (s : String) : Nat := s.toList.count '\t'

/-- Whether a trace contains a subprocess launch. -/
def hasLaunch : List Event → Bool
  | [] => false
  | Event.launch _ _ :: _ => true
  | _ :: es => hasLaunch es

/-- Whether a trace touches the output file (opens or writes it). -/
def hasOutputEffect : List Event → Bool
  | [] => false
  | Event.openOutput _ :: _ => true
  | Event.write _ :: _ => true
  | _ :: es => hasOutputEffect es

/-- A fold that appends one mapped element per step produces the mapped
list after the accumulator. -/
theorem foldl_append_singleton {α β : Type} (g : α → β) (l : List α) (acc : List β) :
    l.foldl (fun f x => f ++ [g x]) acc = acc ++ l.map g := by
  induction l generalizing acc with
  | nil => simp
  | cons x xs ih => simp [ih]

/-- The nested table/row fold appends `tableLines` after the accumulator. -/
theorem tables_foldl_eq (tables : List Table) (acc : List String) :
    tables.foldl (fun f table => table.foldl (fun f row => f ++ [rowLine row ++ "\n"]) f) acc
      = acc ++ tableLines tables := by
  induction tables generalizing acc with
  | nil => simp [tableLines]
  | cons t ts ih =>
    rw [List.foldl_cons, foldl_append_singleton, ih]
    simp [tableLines]

/-- The write chunks are the paragraph lines followed by the table lines. -/
theorem scriptWrites_eq (doc : Doc) :
    scriptWrites doc = doc.paragraphs.map (fun p => p ++ "\n") ++ tableLines doc.tables := by
  unfold scriptWrites
  rw [foldl_append_singleton, tables_foldl_eq]
  simp

/-- One table line per row. -/
theorem tableLines_length (tables : List Table) :
    (tableLines tables).length = (tables.map List.length).sum := by
  induction tables with
  | nil => rfl
  | cons t ts ih => simp [tableLines, ih]

theorem writePayloads_append (l1 l2 : List Event) :
    writePayloads (l1 ++ l2) = writePayloads l1 ++ writePayloads l2 := by
  induction l1 with
  | nil => rfl
  | cons e es ih => cases e <;> simp [writePayloads, ih]

theorem writePayloads_map_write (lines : List String) :
    writePayloads (lines.map Event.write) = lines := by
  induction lines with
  | nil => rfl
  | cons s rest ih => simp [writePayloads, ih]

/-- Trace and outcome of a run that completes the extraction. -/
theorem run_success (env : Env) (doc : Doc) (h1 : env.docxAvailable = true)
    (h2 : env.inputDoc = some doc) (h3 : env.writeFailsAt = none) :
    run env = ([Event.openDoc inputPath, Event.openOutput outputPath]
      ++ (scriptWrites doc).map Event.write
      ++ [Event.closeOutput, Event.printMsg successMsg], Outcome.success) := by
  simp [run, h1, h2, h3]

/-- The writes of a completed run, in order. -/
theorem run_writes (env : Env) (doc : Doc) (h1 : env.docxAvailable = true)
    (h2 : env.inputDoc = some doc) (h3 : env.writeFailsAt = none) :
    writePayloads (run env).1
      = doc.paragraphs.map (fun p => p ++ "\n") ++ tableLines doc.tables := by
  rw [run_success env doc h1 h2 h3]
  dsimp only
  rw [writePayloads_append, writePayloads_append, writePayloads_map_write, scriptWrites_eq]
  simp [writePayloads]

/-- Writing a list of chunks into an open file appends their
concatenation. -/
theorem foldl_applyEvent_writes (lines : List String) (c : String) :
    (lines.map Event.write).foldl applyEvent (some c) = some (c ++ strJoin lines) := by
  induction lines generalizing c with
  | nil => simp [strJoin]
  | cons s rest ih => simp [applyEvent, ih, strJoin, String.append_assoc]

/-- After a completed run, the output file holds exactly the extracted
content, whatever it held before. -/
theorem outputAfter_success (env : Env) (doc : Doc) (prev : Option String)
    (h1 : env.docxAvailable = true) (h2 : env.inputDoc = some doc)
    (h3 : env.writeFailsAt = none) :
    outputAfter prev env = some (outputContent doc) := by
  unfold outputAfter
  rw [run_success env doc h1 h2 h3]
  simp only [List.foldl_append, List.foldl_cons, List.foldl_nil]
  have hopen : applyEvent (applyEvent prev (Event.openDoc inputPath))
      (Event.openOutput outputPath) = some "" := by
    cases prev <;> rfl
  rw [hopen, foldl_applyEvent_writes]
  simp [applyEvent, outputContent]

theorem tabCount_append (a b : String) : tabCount (a ++ b) = tabCount a + tabCount b := by
  simp [tabCount, String.toList, String.data_append]

/-- Joining `n` cells with tabs yields `n - 1` separator tabs plus the
tabs already inside the cells. -/
theorem tabCount_rowLine (row : Row) :
    tabCount (rowLine row) = (row.length - 1) + (row.map tabCount).sum := by
  induction row with
  | nil => rfl
  | cons c rest ih =>
    cases rest with
    | nil => simp [rowLine, tabCount]
    | cons c2 r2 =>
      have htab : tabCount "\t" = 1 := rfl
      rw [rowLine, tabCount_append, tabCount_append, htab, ih]
      simp only [List.length_cons, List.map_cons, List.sum_cons]
      omega

/-- Each row of each table contributes its line to `tableLines`. -/
theorem mem_tableLines {tables : List Table} {table : Table} {row : Row}
    (ht : table ∈ tables) (hr : row ∈ table) :
    (rowLine row ++ "\n") ∈ tableLines tables := by
  induction tables with
  | nil => cases ht
  | cons t ts ih =>
    rw [tableLines, List.mem_append]
    rcases List.mem_cons.1 ht with rfl | h
    · exact Or.inl (List.mem_map.2 ⟨row, hr, rfl⟩)
    · exact Or.inr (ih h)

theorem hasLaunch_append (l1 l2 : List Event) :
    hasLaunch (l1 ++ l2) = (hasLaunch l1 || hasLaunch l2) := by
  induction l1 with
  | nil => rfl
  | cons e es ih => cases e <;> simp [hasLaunch, ih]

theorem hasLaunch_map_write (lines : List String) :
    hasLaunch (lines.map Event.write) = false := by
  induction lines with
  | nil => rfl
  | cons s rest ih => simp [hasLaunch, ih]

theorem hasLaunch_take_map_write (k : Nat) (lines : List String) :
    hasLaunch (List.take k (lines.map Event.write)) = false := by
  rw [← List.map_take]
  exact hasLaunch_map_write _

/-- A small concrete document: two paragraphs, a two-row table (first
row two cells) and a one-row table. -/
def sampleDoc : Doc := ⟨["alpha", "beta"], [[["a", "b"], ["c"]], [["d"]]]⟩

/-- An environment where the library is available and extraction
completes on `sampleDoc`. -/
def sampleEnv : Env := ⟨true, some sampleDoc, none, 0⟩

/-- An environment where the library is absent. -/
def noDocxEnv : Env := ⟨false, none, none, 0⟩

/-- Number of newline characters in a string: the number of lines of a
newline-terminated text file holding it. -/
def newlineCount (s : String) : Nat := s.toList.count '\n'

/-- Newlines occurring inside the document's own texts (paragraph texts
and cell texts). -/
def docTextNewlines (doc : Doc) : Nat :=
  (doc.paragraphs.map newlineCount).sum
    + (doc.tables.map (fun t => (t.map (fun r => (r.map newlineCount).sum)).sum)).sum

/-- A document whose single paragraph text itself contains a newline. -/
def newlineDoc : Doc := ⟨["a\nb"], []⟩

theorem newlineCount_append (a b : String) :
    newlineCount (a ++ b) = newlineCount a + newlineCount b := by
  simp [newlineCount, String.toList, String.data_append]

theorem newlineCount_strJoin (lines : List String) :
    newlineCount (strJoin lines) = (lines.map newlineCount).sum := by
  induction lines with
  | nil => rfl
  | cons s rest ih => simp [strJoin, newlineCount_append, ih]

/-- Joining cells with tabs adds no newline characters. -/
theorem newlineCount_rowLine (row : Row) :
    newlineCount (rowLine row) = (row.map newlineCount).sum := by
  induction row with
  | nil => rfl
  | cons c rest ih =>
    cases rest with
    | nil => simp [rowLine]
    | cons c2 r2 =>
      have htab : newlineCount "\t" = 0 := rfl
      rw [rowLine, newlineCount_append, newlineCount_append, htab, ih]
      simp only [List.map_cons, List.sum_cons]
      omega

theorem newlineCount_paraLines (ps : List String) :
    ((ps.map (fun p => p ++ "\n")).map newlineCount).sum
      = ps.length + (ps.map newlineCount).sum := by
  induction ps with
  | nil => rfl
  | cons p rest ih =>
    have h1 : newlineCount "\n" = 1 := rfl
    simp only [List.map_cons, List.sum_cons, List.length_cons, ih, newlineCount_append, h1]
    omega

theorem newlineCount_tableRows (t : Table) :
    ((t.map (fun row => rowLine row ++ "\n")).map newlineCount).sum
      = t.length + (t.map (fun r => (r.map newlineCount).sum)).sum := by
  induction t with
  | nil => rfl
  | cons r rs ih =>
    have h1 : newlineCount "\n" = 1 := rfl
    simp only [List.map_cons, List.sum_cons, List.length_cons, ih, newlineCount_append,
      newlineCount_rowLine, h1]
    omega

theorem newlineCount_tableLines (tables : List Table) :
    ((tableLines tables).map newlineCount).sum
      = (tables.map List.length).sum
        + (tables.map (fun t => (t.map (fun r => (r.map newlineCount).sum)).sum)).sum := by
  induction tables with
  | nil => rfl
  | cons t ts ih =>
    rw [tableLines]
    simp only [List.map_append, List.sum_append, List.map_cons, List.sum_cons, ih,
      newlineCount_tableRows]
    omega

/-- The output file's line count is the number of lines written plus the
newlines embedded in the document's texts. -/
theorem newlineCount_outputContent (doc : Doc) :
    newlineCount (outputContent doc)
      = doc.paragraphs.length + (doc.tables.map List.length).sum + docTextNewlines doc := by
  rw [outputContent, newlineCount_strJoin, scriptWrites_eq]
  rw [List.map_append, List.sum_append, newlineCount_paraLines, newlineCount_tableLines]
  simp only [docTextNewlines]
  omega

/-- Claim C1 counterexample: a paragraph text may itself contain a
newline, so a document with one paragraph and no tables can produce an
output file of two lines, not `N + R = 1`: the claim as stated fails on
`newlineDoc`. -/
theorem c1_counterexample :
    outputAfter none ⟨true, some newlineDoc, none, 0⟩ = some "a\nb\n"
      ∧ newlineCount "a\nb\n"
          ≠ newlineDoc.paragraphs.length + (newlineDoc.tables.map List.length).sum :=
  ⟨by decide, by decide⟩

/-- Claim C1 (amended): when the reading capability is available and
extraction completes on a document with `N` paragraphs and tables
totalling `R` rows, exactly `N + R` lines are written to the output
file (one per paragraph and one per table row), and the resulting file
holds `N + R` lines plus the newline characters occurring inside the
paragraph and cell texts themselves — hence exactly `N + R` lines
whenever no text contains a newline. -/
theorem c1_line_count (env : Env) (doc : Doc) (h1 : env.docxAvailable = true)
    (h2 : env.inputDoc = some doc) (h3 : env.writeFailsAt = none) (prev : Option String) :
    (writePayloads (run env).1).length
      = doc.paragraphs.length + (doc.tables.map List.length).sum
    ∧ outputAfter prev env = some (outputContent doc)
    ∧ newlineCount (outputContent doc)
      = doc.paragraphs.length + (doc.tables.map List.length).sum + docTextNewlines doc := by
  refine ⟨?_, outputAfter_success env doc prev h1 h2 h3, newlineCount_outputContent doc⟩
  rw [run_writes env doc h1 h2 h3]
  simp [tableLines_length]

theorem c1_line_count_witness :
    ((writePayloads (run sampleEnv).1).length
      = sampleDoc.paragraphs.length + (sampleDoc.tables.map List.length).sum)
    ∧ outputAfter none sampleEnv = some (outputContent sampleDoc)
    ∧ newlineCount (outputContent sampleDoc)
      = sampleDoc.paragraphs.length + (sampleDoc.tables.map List.length).sum
          + docTextNewlines sampleDoc :=
  c1_line_count sampleEnv sampleDoc rfl rfl rfl none

/-- C2: the lines written by a completed extraction are the paragraph
lines in document order, followed by the table lines with tables in
document order, rows top-to-bottom, and (inside `rowLine`) cells
left-to-right. -/
theorem c2_output_order (env : Env) (doc : Doc) (h1 : env.docxAvailable = true)
    (h2 : env.inputDoc = some doc) (h3 : env.writeFailsAt = none) :
    writePayloads (run env).1
      = doc.paragraphs.map (fun p => p ++ "\n") ++ tableLines doc.tables :=
  run_writes env doc h1 h2 h3

theorem c2_output_order_witness :
    writePayloads (run sampleEnv).1
      = sampleDoc.paragraphs.map (fun p => p ++ "\n") ++ tableLines sampleDoc.tables :=
  c2_output_order sampleEnv sampleDoc rfl rfl rfl

/-- C3: when the import fails, the run prints the remediation message
and the fallback message, launches the host launcher on the document
path, ends without an uncaught exception, and leaves the output file
untouched (in particular it is not created). -/
theorem c3_fallback (env : Env) (prev : Option String) (h : env.docxAvailable = false) :
    (run env).1 = [Event.printMsg missingDepMsg, Event.printMsg fallbackMsg,
        Event.launch ["start", inputPath] true]
      ∧ (run env).2 = Outcome.success
      ∧ outputAfter prev env = prev := by
  refine ⟨?_, ?_, ?_⟩ <;> simp [run, h, outputAfter, applyEvent]

theorem c3_fallback_witness :
    (run noDocxEnv).1 = [Event.printMsg missingDepMsg, Event.printMsg fallbackMsg,
        Event.launch ["start", inputPath] true]
      ∧ (run noDocxEnv).2 = Outcome.success
      ∧ outputAfter none noDocxEnv = none :=
  c3_fallback noDocxEnv none rfl

/-- C4: every failure other than the import error is uncaught.  When
`Document(...)` raises (input missing or corrupt) the run faults with
only the document-open event in its trace, so the output file was never
opened and keeps its previous state; when a write fails mid-extraction
the run also faults. -/
theorem c4_uncaught_faults :
    (∀ env prev, env.docxAvailable = true → env.inputDoc = none →
      (run env).2 = Outcome.fault ∧ (run env).1 = [Event.openDoc inputPath]
        ∧ outputAfter prev env = prev)
    ∧ (∀ env doc k, env.docxAvailable = true → env.inputDoc = some doc →
        env.writeFailsAt = some k → k < (scriptWrites doc).length →
        (run env).2 = Outcome.fault) := by
  constructor
  · intro env prev h1 h2
    refine ⟨?_, ?_, ?_⟩ <;> simp [run, h1, h2, outputAfter, applyEvent]
  · intro env doc k h1 h2 h3 hk
    simp [run, h1, h2, h3, hk]

theorem c4_uncaught_faults_witness :
    ((run ⟨true, none, none, 0⟩).2 = Outcome.fault
      ∧ (run ⟨true, none, none, 0⟩).1 = [Event.openDoc inputPath]
      ∧ outputAfter none ⟨true, none, none, 0⟩ = none)
    ∧ (run ⟨true, some sampleDoc, some 1, 0⟩).2 = Outcome.fault :=
  ⟨c4_uncaught_faults.1 ⟨true, none, none, 0⟩ none rfl rfl,
   c4_uncaught_faults.2 ⟨true, some sampleDoc, some 1, 0⟩ sampleDoc 1 rfl rfl rfl
     (by decide)⟩

/-- A document whose single table cell text itself contains a tab. -/
def tabDoc : Doc := ⟨[], [[["a\tb", "c"]]]⟩

/-- Claim C5 counterexample: a cell text may itself contain tab
characters, so the output line for a 2-cell row can contain 2 tabs, not
exactly `2 - 1 = 1`: the claim as stated fails on `tabDoc`. -/
theorem c5_counterexample :
    writePayloads (run ⟨true, some tabDoc, none, 0⟩).1 = ["a\tb\tc\n"]
      ∧ tabCount "a\tb\tc\n" ≠ (["a\tb", "c"] : Row).length - 1 :=
  ⟨by decide, by decide⟩

/-- Claim C5 (amended): each table row's output line is produced by
joining the cell texts with tab separators, and contains exactly
(cells − 1) separator tabs plus whatever tabs occur inside the cell
texts themselves — hence exactly (cells − 1) tabs whenever no cell text
contains a tab. -/
theorem c5_tab_characters (env : Env) (doc : Doc) (table : Table) (row : Row)
    (h1 : env.docxAvailable = true) (h2 : env.inputDoc = some doc)
    (h3 : env.writeFailsAt = none) (ht : table ∈ doc.tables) (hr : row ∈ table) :
    (rowLine row ++ "\n") ∈ writePayloads (run env).1
      ∧ tabCount (rowLine row ++ "\n") = (row.length - 1) + (row.map tabCount).sum := by
  constructor
  · rw [run_writes env doc h1 h2 h3]
    exact List.mem_append.2 (Or.inr (mem_tableLines ht hr))
  · have hnl : tabCount "\n" = 0 := rfl
    rw [tabCount_append, tabCount_rowLine, hnl]
    omega

theorem c5_tab_characters_witness :
    (rowLine ["a", "b"] ++ "\n") ∈ writePayloads (run sampleEnv).1
      ∧ tabCount (rowLine ["a", "b"] ++ "\n")
          = ((["a", "b"] : Row).length - 1) + ((["a", "b"] : Row).map tabCount).sum :=
  c5_tab_characters sampleEnv sampleDoc [["a", "b"], ["c"]] ["a", "b"] rfl rfl rfl
    (by decide) (by decide)

/-- Claim C6: a completed extraction leaves the output file holding
exactly the extracted content whatever the file held before (write mode
truncates rather than appends), so two runs on the same document yield
byte-identical output files. -/
theorem c6_idempotent (env : Env) (doc : Doc) (prev1 prev2 : Option String)
    (h1 : env.docxAvailable = true) (h2 : env.inputDoc = some doc)
    (h3 : env.writeFailsAt = none) :
    outputAfter prev1 env = some (outputContent doc)
      ∧ outputAfter prev1 env = outputAfter prev2 env :=
  ⟨outputAfter_success env doc prev1 h1 h2 h3,
   (outputAfter_success env doc prev1 h1 h2 h3).trans
     (outputAfter_success env doc prev2 h1 h2 h3).symm⟩

theorem c6_idempotent_witness :
    outputAfter (some "stale") sampleEnv = some (outputContent sampleDoc)
      ∧ outputAfter (some "stale") sampleEnv = outputAfter none sampleEnv :=
  c6_idempotent sampleEnv sampleDoc (some "stale") none rfl rfl rfl

/-- Claim C7: scoped acquisition of the output handle — every trace that
opens the output file also closes it, on normal completion and on a
write failure alike. -/
theorem c7_close_on_all_paths (env : Env) (p : String)
    (h : Event.openOutput p ∈ (run env).1) : Event.closeOutput ∈ (run env).1 := by
  rcases env with ⟨avail, d, w, x⟩
  cases avail
  · simp [run] at h
  · cases d with
    | none => simp [run] at h
    | some doc =>
      cases w with
      | none => simp [run]
      | some k =>
        by_cases hk : k < (scriptWrites doc).length <;> simp [run, hk]

theorem c7_close_on_all_paths_witness :
    Event.openOutput outputPath ∈ (run ⟨true, some sampleDoc, some 1, 0⟩).1
      ∧ Event.closeOutput ∈ (run ⟨true, some sampleDoc, some 1, 0⟩).1 :=
  ⟨by decide, c7_close_on_all_paths ⟨true, some sampleDoc, some 1, 0⟩ outputPath (by decide)⟩

/-- Claim C8: the fallback launch is fire-and-forget — the run's trace
and outcome are independent of the launched command's exit status, which
is discarded and never inspected. -/
theorem c8_fire_and_forget (a : Bool) (d : Option Doc) (w : Option Nat) (x1 x2 : Int) :
    run ⟨a, d, w, x1⟩ = run ⟨a, d, w, x2⟩ := rfl

/-- Claim C9: the two paths are mutually exclusive in their side
effects — no trace both launches a subprocess and touches the output
file. -/
theorem c9_mutually_exclusive (env : Env) :
    (hasLaunch (run env).1 && hasOutputEffect (run env).1) = false := by
  rcases env with ⟨avail, d, w, x⟩
  cases avail
  · simp [run, hasLaunch, hasOutputEffect]
  · cases d with
    | none => simp [run, hasLaunch]
    | some doc =>
      cases w with
      | none => simp [run, hasLaunch, hasLaunch_append, hasLaunch_map_write]
      | some k =>
        by_cases hk : k < (scriptWrites doc).length <;>
          simp [run, hk, hasLaunch, hasLaunch_append, hasLaunch_map_write,
            hasLaunch_take_map_write]

/-- Claim C10: the extraction path unconditionally overwrites any
pre-existing output file with the extracted content and prints the
success message; for a document with no paragraphs and no tables the
output file is still created, truncated to empty. -/
theorem c10_empty_doc (env : Env) (prev : Option String) (doc : Doc)
    (h1 : env.docxAvailable = true) (h2 : env.inputDoc = some doc)
    (h3 : env.writeFailsAt = none) :
    outputAfter prev env = some (outputContent doc)
      ∧ Event.printMsg successMsg ∈ (run env).1
      ∧ (doc = ⟨[], []⟩ → outputAfter prev env = some "") := by
  refine ⟨outputAfter_success env doc prev h1 h2 h3, ?_, ?_⟩
  · rw [run_success env doc h1 h2 h3]
    simp
  · intro hd
    subst hd
    exact outputAfter_success env ⟨[], []⟩ prev h1 h2 h3

/-- The empty document and an environment reading it over a stale
output file. -/
def emptyDoc : Doc := ⟨[], []⟩

def emptyEnv : Env := ⟨true, some emptyDoc, none, 0⟩

theorem c10_empty_doc_witness :
    outputAfter (some "stale contents") emptyEnv = some (outputContent emptyDoc)
      ∧ Event.printMsg successMsg ∈ (run emptyEnv).1
      ∧ (emptyDoc = ⟨[], []⟩ → outputAfter (some "stale contents") emptyEnv = some "") :=
  c10_empty_doc emptyEnv (some "stale contents") emptyDoc rfl rfl rfl

end ExtractDocx
